import Mathlib

/-
Shallow embedding of src/crawler.py (class WebCrawler).

Modelling choices:
- The external collaborators (requests.get + BeautifulSoup parsing, urljoin,
  urlparse().netloc, hashlib.md5) are abstracted as an `Env` of functions;
  a successful fetch yields a `Page` (response text, optional title tag,
  anchor href attributes), a failed fetch yields an error string
  (the `except Exception` branch of crawl_page).
- sqlite state is a `DBState`: the crawl_results and crawl_logs tables as
  lists of rows in insertion order.  The UNIQUE(url) constraint of
  crawl_results (the caught IntegrityError of save_result) is modelled by an
  explicit membership check; UNIQUE(content_hash) is enforced by the
  is_duplicate_content pre-check, exactly as in the source.
- The thread pool is sequentialised: a batch's workers run in list order
  (as_completed yields futures in an arbitrary order; the claims checked
  here do not depend on that order).  Python's set of discovered links is
  determinised as an insertion-ordered duplicate-free list.
- The while-loop of crawl is given an explicit fuel argument returning
  `none` on exhaustion; the termination theorem shows fuel max_pages + 1
  always suffices, which is exactly the statement that the Python loop
  terminates.
- time.sleep(self.delay) has no observable effect in this state model.
-/

namespace CrawlerPy

/-- DatabaseConfig dataclass (src/crawler.py lines 11-17): stored by the
constructor, never read afterwards. -/
structure DatabaseConfig where
  host : String
  user : String
  password : String
  database : String
  port : Nat
  deriving DecidableEq, Repr

/-- One row of the crawl_results table (url UNIQUE, content_hash UNIQUE). -/
structure ContentRecord where
  url : String
  title : Option String
  content_hash : String
  ip_address : Option String
  deriving DecidableEq, Repr

/-- One row of the crawl_logs table. -/
structure LogEntry where
  url : String
  status : String
  error : Option String
  deriving DecidableEq, Repr

/-- The sqlite database state: both tables, rows in insertion order. -/
structure DBState where
  crawl_results : List ContentRecord
  crawl_logs : List LogEntry
  deriving DecidableEq, Repr

/-- A successfully fetched and parsed page: response.text, the optional
title tag (itself holding an optional string, as soup.title.string can be
None), and the href attribute of each anchor tag (None when absent). -/
structure Page where
  text : String
  title_tag : Option (Option String)
  anchors : List (Option String)
  deriving DecidableEq, Repr

/-- External collaborators: urlparse().netloc, urljoin, hashlib.md5
hexdigest, and the combined requests.get + BeautifulSoup step, which either
returns a parsed page or raises (Except.error carries str(e)). -/
structure Env where
  netloc : String → String
  urljoin : String → String → String
  md5 : String → String
  fetch : String → Except String Page

/-- The immutable part of the WebCrawler object.  The mutable visited set
lives in CrawlState; the sqlite connection is the DBState threaded through
the functions. -/
structure WebCrawler where
  start_url : String
  domain : String
  db_config : DatabaseConfig
  delay : Nat
  max_workers : Nat

/-- WebCrawler.__init__ (lines 20-27): domain = urlparse(start_url).netloc. -/
def WebCrawler.make (start_url : String) (db_config : DatabaseConfig)
    (delay : Nat) (max_workers : Nat) (env : Env) : WebCrawler :=
  { start_url := start_url, domain := env.netloc start_url,
    db_config := db_config, delay := delay, max_workers := max_workers }

/-- get_content_hash (lines 58-60): md5 hexdigest of the content. -/
def get_content_hash (env : Env) (content : String) : String :=
  env.md5 content

/-- is_duplicate_content (lines 62-65): SELECT id FROM crawl_results WHERE
content_hash = ?. -/
def is_duplicate_content (db : DBState) (content_hash : String) : Bool :=
  db.crawl_results.any (fun r => r.content_hash == content_hash)

/-- The UNIQUE(url) constraint of crawl_results: an INSERT with an already
present url raises sqlite3.IntegrityError, caught in save_result. -/
def url_already_saved (db : DBState) (url : String) : Bool :=
  db.crawl_results.any (fun r => r.url == url)

/-- save_result (lines 67-79): insert unless the content hash is already
present; a url collision raises IntegrityError which is caught (the record
is simply not inserted). -/
def save_result (env : Env) (db : DBState) (url : String)
    (title : Option String) (content : String) (ip : Option String) : DBState :=
  let content_hash := get_content_hash env content
  if is_duplicate_content db content_hash then db
  else if url_already_saved db url then db
  else { db with crawl_results := db.crawl_results ++ [⟨url, title, content_hash, ip⟩] }

/-- log_crawl (lines 81-87): unconditional INSERT INTO crawl_logs. -/
def log_crawl (db : DBState) (url : String) (status : String)
    (error : Option String) : DBState :=
  { db with crawl_logs := db.crawl_logs ++ [⟨url, status, error⟩] }

/-- Modelled from the spec: crawl_page (line 109) calls self.is_valid_url,
but no is_valid_url method is defined anywhere in src/.  The spec (section
4.2) says link filtering keeps only links whose host matches the crawl's
target domain exactly (no subdomain matching, no path restriction), so the
missing method is modelled as exact equality of the url's netloc with
self.domain. -/
def is_valid_url (c : WebCrawler) (env : Env) (url : String) : Bool :=
  env.netloc url == c.domain

/-- The link-extraction loop of crawl_page (lines 104-110): for each anchor,
if it has a truthy href (Python: non-None and non-empty), absolutise it
against the page url and add it to the links set when valid.  The Python
set is modelled as an insertion-ordered duplicate-free list accumulator. -/
def add_links (c : WebCrawler) (env : Env) (url : String) :
    List (Option String) → List String → List String
  | [], links => links
  | href? :: rest, links =>
    match href? with
    | none => add_links c env url rest links
    | some href =>
      if href = "" then add_links c env url rest links
      else
        let absolute_url := env.urljoin url href
        if is_valid_url c env absolute_url then
          if absolute_url ∈ links then add_links c env url rest links
          else add_links c env url rest (links ++ [absolute_url])
        else add_links c env url rest links

/-- crawl_page (lines 89-116): fetch, parse, save the result, log success,
extract links; on any exception, log an error with str(e) and return the
empty set.  Returns the discovered links and the updated database. -/
def crawl_page (c : WebCrawler) (env : Env) (db : DBState) (url : String) :
    List String × DBState :=
  match env.fetch url with
  | Except.error e => ([], log_crawl db url "error" (some e))
  | Except.ok page =>
    let title : Option String :=
      match page.title_tag with
      | some t => t
      | none => some "No title"
    let ip := env.netloc url
    let db1 := save_result env db url title page.text (some ip)
    let db2 := log_crawl db1 url "success" none
    (add_links c env url page.anchors [], db2)

/-- The scheduler state of one crawl run: self.visited, the local queue,
the database, and (as an observation trace) the list of all urls ever
dispatched to a worker, in dispatch order. -/
structure CrawlState where
  visited : List String
  queue : List String
  dispatched : List String
  db : DBState
  deriving DecidableEq, Repr

/-- The batch-building inner while of crawl (lines 125-130): pop from the
front of the queue while the queue is non-empty and the batch is below k;
skip already visited urls, mark selected urls visited at selection time.
Returns (batch, new visited, remaining queue). -/
def take_batch (k : Nat) :
    List String → List String → List String →
    List String × List String × List String
  | [], visited, batch => (batch, visited, [])
  | url :: rest, visited, batch =>
    if batch.length < k then
      if url ∈ visited then take_batch k rest visited batch
      else take_batch k rest (visited ++ [url]) (batch ++ [url])
    else (batch, visited, url :: rest)

/-- Dispatch of one batch and collection of its results (lines 136-141):
each url is crawled, and its discovered links not in self.visited are
appended to the queue.  self.visited is not modified in this phase. -/
def run_batch (c : WebCrawler) (env : Env) :
    CrawlState → List String → CrawlState
  | st, [] => st
  | st, url :: rest =>
    let r := crawl_page c env st.db url
    run_batch c env
      { st with
        db := r.2,
        queue := st.queue ++ r.1.filter (fun l => decide (l ∉ st.visited)) } rest

/-- The outer while of crawl (lines 123-143), with explicit fuel: while the
queue is non-empty and len(visited) < max_pages, build a batch; break if the
batch is empty; otherwise dispatch it and loop.  Returns none only when the
fuel runs out. -/
def crawl_loop (c : WebCrawler) (env : Env) (max_pages : Nat) :
    Nat → CrawlState → Option CrawlState
  | 0, _ => none
  | fuel + 1, st =>
    if st.queue ≠ [] ∧ st.visited.length < max_pages then
      let r := take_batch c.max_workers st.queue st.visited []
      if r.1 = [] then some { st with visited := r.2.1, queue := r.2.2 }
      else
        let st' : CrawlState :=
          { st with visited := r.2.1, queue := r.2.2, dispatched := st.dispatched ++ r.1 }
        crawl_loop c env max_pages fuel (run_batch c env st' r.1)
    else some st

/-- The initial scheduler state: queue = [self.start_url], nothing visited
or dispatched, database as left by setup_database (a parameter, since the
sqlite file persists across runs). -/
def init_state (c : WebCrawler) (db0 : DBState) : CrawlState :=
  { visited := [], queue := [c.start_url], dispatched := [], db := db0 }

/-- crawl (lines 118-143), with the fuel max_pages + 1, which the
termination theorem shows always suffices. -/
def crawl (c : WebCrawler) (env : Env) (max_pages : Nat) (db0 : DBState) :
    Option CrawlState :=
  crawl_loop c env max_pages (max_pages + 1) (init_state c db0)

/-- The content_hash column of the crawl_results table, in row order. -/
def hashes (db : DBState) : List String :=
  db.crawl_results.map (fun r => r.content_hash)

/-- The scheduler state right after batch selection, before dispatch. -/
def mid_state (c : WebCrawler) (st : CrawlState) : CrawlState :=
  { st with
    visited := (take_batch c.max_workers st.queue st.visited []).2.1,
    queue := (take_batch c.max_workers st.queue st.visited []).2.2,
    dispatched := st.dispatched ++ (take_batch c.max_workers st.queue st.visited []).1 }

/-- The scheduler state after one full loop iteration (selection + dispatch). -/
def step_state (c : WebCrawler) (env : Env) (st : CrawlState) : CrawlState :=
  run_batch c env (mid_state c st) (take_batch c.max_workers st.queue st.visited []).1

/-- The scheduler state on the break branch (empty batch). -/
def break_state (c : WebCrawler) (st : CrawlState) : CrawlState :=
  { st with
    visited := (take_batch c.max_workers st.queue st.visited []).2.1,
    queue := (take_batch c.max_workers st.queue st.visited []).2.2 }

/-! Concrete fixtures used by witnesses and counterexamples. -/

/-- A concrete DatabaseConfig, as in the example entry point. -/
def testConfig : DatabaseConfig :=
  ⟨"localhost", "crawler_user", "secure_password", "crawler_db", 3306⟩

/-- A second DatabaseConfig differing in every field. -/
def testConfig2 : DatabaseConfig :=
  ⟨"remotehost", "other_user", "other_password", "other_db", 5432⟩

/-- A concrete collaborator environment over a four-page world: page "s"
links to "b" and "c", both of which link to "z"; every url has host "d";
hrefs are already absolute; the hash is the identity. -/
def testEnv : Env where
  netloc := fun _ => "d"
  urljoin := fun _ href => href
  md5 := fun s => s
  fetch := fun url =>
    if url = "s" then Except.ok ⟨"S", some (some "Start"), [some "b", none, some "c"]⟩
    else if url = "b" then Except.ok ⟨"B", none, [some "z", some ""]⟩
    else if url = "c" then Except.ok ⟨"C", some none, [some "z"]⟩
    else if url = "z" then Except.ok ⟨"Z", some (some "Zt"), []⟩
    else Except.error "404"

/-- The crawler built on the seed "s" (host "d"). -/
def testCrawler : WebCrawler :=
  WebCrawler.make "s" testConfig 1 5 testEnv

/-- Both tables empty. -/
def emptyDB : DBState := ⟨[], []⟩

/-- The initial state on the seed "s" with an empty database. -/
def testInit : CrawlState := init_state testCrawler emptyDB

/-- A database already holding a record whose content hash is "B" — the
body of page "b" — under a different url. -/
def dbDup : DBState :=
  ⟨[⟨"x", some "t", "B", none⟩], []⟩

/-- A mid-run state: "s" and "b" visited, nothing pending. -/
def pendingTest : CrawlState := ⟨["s", "b"], [], [], emptyDB⟩

/-- The page served at url "b". -/
def pageB : Page := ⟨"B", none, [some "z", some ""]⟩

/-- The final state of crawl testCrawler testEnv 3 emptyDB, written out. -/
def finalSt3 : CrawlState :=
  ⟨["s", "b", "c"], ["z", "z"], ["s", "b", "c"],
    ⟨[⟨"s", some "Start", "S", some "d"⟩,
      ⟨"b", some "No title", "B", some "d"⟩,
      ⟨"c", none, "C", some "d"⟩],
     [⟨"s", "success", none⟩,
      ⟨"b", "success", none⟩,
      ⟨"c", "success", none⟩]⟩⟩

/-! Basic lemmas about the database operations. -/

/-- save_result never touches the crawl_logs table. -/
lemma save_result_logs (env : Env) (db : DBState) (url : String)
    (title : Option String) (content : String) (ip : Option String) :
    (save_result env db url title content ip).crawl_logs = db.crawl_logs := by
  simp only [save_result]
  split
  · rfl
  · split <;> rfl

/-- log_crawl never touches the crawl_results table. -/
lemma log_crawl_results (db : DBState) (url status : String) (error : Option String) :
    (log_crawl db url status error).crawl_results = db.crawl_results := rfl

/-- The duplicate check answers membership in the content_hash column. -/
lemma is_duplicate_content_iff (db : DBState) (h : String) :
    is_duplicate_content db h = true ↔ h ∈ hashes db := by
  simp [is_duplicate_content, hashes, List.any_eq_true, List.mem_map, beq_iff_eq]

/-- Every link produced by the extraction loop is either already in the
accumulator or passes the domain validity check. -/
lemma mem_add_links (c : WebCrawler) (env : Env) (url : String) :
    ∀ (anchors : List (Option String)) (acc : List String) (l : String),
      l ∈ add_links c env url anchors acc →
      l ∈ acc ∨ is_valid_url c env l = true := by
  intro anchors
  induction anchors with
  | nil => intro acc l h; exact Or.inl h
  | cons href? rest ih =>
    intro acc l h
    cases href? with
    | none => exact ih acc l h
    | some href =>
      by_cases he : href = ""
      · simp only [add_links, if_pos he] at h
        exact ih acc l h
      · simp only [add_links, if_neg he] at h
        by_cases hval : is_valid_url c env (env.urljoin url href) = true
        · rw [if_pos hval] at h
          by_cases hmem : env.urljoin url href ∈ acc
          · rw [if_pos hmem] at h
            exact ih acc l h
          · rw [if_neg hmem] at h
            rcases ih _ l h with hacc | hv
            · rcases List.mem_append.1 hacc with h1 | h2
              · exact Or.inl h1
              · rw [List.mem_singleton.1 h2]
                exact Or.inr hval
            · exact Or.inr hv
        · rw [if_neg hval] at h
          exact ih acc l h

/-- is_valid_url accepts exactly the urls with the target host. -/
lemma is_valid_url_iff (c : WebCrawler) (env : Env) (url : String) :
    is_valid_url c env url = true ↔ env.netloc url = c.domain := by
  simp [is_valid_url]

/-! Structure of the batch-building loop. -/

/-- take_batch appends the same block t of fresh urls to both the batch and
the visited set; t is duplicate-free and disjoint from the old visited set,
and the remaining queue only holds urls of the old queue. -/
lemma take_batch_spec (k : Nat) :
    ∀ (q v b : List String),
      ∃ t : List String,
        (take_batch k q v b).1 = b ++ t ∧
        (take_batch k q v b).2.1 = v ++ t ∧
        (∀ u ∈ t, u ∉ v) ∧ t.Nodup ∧
        (∀ l ∈ (take_batch k q v b).2.2, l ∈ q) := by
  intro q
  induction q with
  | nil =>
    intro v b
    exact ⟨[], by simp [take_batch], by simp [take_batch], by simp,
      List.nodup_nil, by simp [take_batch]⟩
  | cons url rest ih =>
    intro v b
    by_cases hlen : b.length < k
    · by_cases hv : url ∈ v
      · obtain ⟨t, h1, h2, h3, h4, h5⟩ := ih v b
        refine ⟨t, ?_, ?_, h3, h4, ?_⟩
        · simpa [take_batch, hlen, hv] using h1
        · simpa [take_batch, hlen, hv] using h2
        · intro l hl
          have : l ∈ rest := h5 l (by simpa [take_batch, hlen, hv] using hl)
          exact List.mem_cons_of_mem _ this
      · obtain ⟨t, h1, h2, h3, h4, h5⟩ := ih (v ++ [url]) (b ++ [url])
        refine ⟨url :: t, ?_, ?_, ?_, ?_, ?_⟩
        · rw [show take_batch k (url :: rest) v b =
              take_batch k rest (v ++ [url]) (b ++ [url]) by
                simp [take_batch, hlen, hv]]
          rw [h1, List.append_assoc]
          rfl
        · rw [show take_batch k (url :: rest) v b =
              take_batch k rest (v ++ [url]) (b ++ [url]) by
                simp [take_batch, hlen, hv]]
          rw [h2, List.append_assoc]
          rfl
        · intro u hu
          rcases List.mem_cons.1 hu with h | h
          · rw [h]; exact hv
          · intro hcon
            exact h3 u h (List.mem_append_left _ hcon)
        · refine List.nodup_cons.2 ⟨?_, h4⟩
          intro hcon
          exact h3 url hcon (List.mem_append_right _ (List.mem_singleton.2 rfl))
        · intro l hl
          have : l ∈ rest := h5 l (by simpa [take_batch, hlen, hv] using hl)
          exact List.mem_cons_of_mem _ this
    · refine ⟨[], ?_, ?_, by simp, List.nodup_nil, ?_⟩
      · simp [take_batch, hlen]
      · simp [take_batch, hlen]
      · intro l hl
        simpa [take_batch, hlen] using hl

/-- The batch never exceeds the worker bound (starting from an accumulator
already within the bound). -/
lemma take_batch_length (k : Nat) :
    ∀ (q v b : List String), b.length ≤ k →
      (take_batch k q v b).1.length ≤ k := by
  intro q
  induction q with
  | nil => intro v b hb; simpa [take_batch] using hb
  | cons url rest ih =>
    intro v b hb
    by_cases hlen : b.length < k
    · by_cases hv : url ∈ v
      · simpa [take_batch, hlen, hv] using ih v b hb
      · have : (b ++ [url]).length ≤ k := by
          simpa [List.length_append] using hlen
        simpa [take_batch, hlen, hv] using ih (v ++ [url]) (b ++ [url]) this
    · simpa [take_batch, hlen] using hb

/-! Structure of batch dispatch. -/

/-- Dispatching a batch changes neither the visited set nor the dispatch
trace: workers only return data. -/
lemma run_batch_visited_dispatched (c : WebCrawler) (env : Env) :
    ∀ (batch : List String) (st : CrawlState),
      (run_batch c env st batch).visited = st.visited ∧
      (run_batch c env st batch).dispatched = st.dispatched := by
  intro batch
  induction batch with
  | nil => intro st; exact ⟨rfl, rfl⟩
  | cons url rest ih =>
    intro st
    simpa [run_batch] using ih _

/-- Any url in the queue after a batch was either already pending before the
batch or was unvisited when it was offered. -/
lemma run_batch_queue_cases (c : WebCrawler) (env : Env) :
    ∀ (batch : List String) (st : CrawlState) (l : String),
      l ∈ (run_batch c env st batch).queue →
      l ∈ st.queue ∨ l ∉ st.visited := by
  intro batch
  induction batch with
  | nil => intro st l h; exact Or.inl h
  | cons url rest ih =>
    intro st l h
    rcases ih _ l h with h1 | h2
    · rcases List.mem_append.1 h1 with hq | hf
      · exact Or.inl hq
      · exact Or.inr (of_decide_eq_true (List.mem_filter.1 hf).2)
    · exact Or.inr h2

/-- A property that holds of every link any crawl_page call can return, and
of every url already pending, holds of every url pending after a batch. -/
lemma run_batch_queue_pred (c : WebCrawler) (env : Env) (p : String → Prop)
    (hcp : ∀ (db : DBState) (url l : String),
      l ∈ (crawl_page c env db url).1 → p l) :
    ∀ (batch : List String) (st : CrawlState),
      (∀ l ∈ st.queue, p l) →
      ∀ l ∈ (run_batch c env st batch).queue, p l := by
  intro batch
  induction batch with
  | nil => intro st hq l h; exact hq l h
  | cons url rest ih =>
    intro st hq l h
    refine ih _ ?_ l h
    intro l' hl'
    rcases List.mem_append.1 hl' with h1 | h2
    · exact hq l' h1
    · exact hcp st.db url l' (List.mem_filter.1 h2).1

/-! Preservation of content-hash uniqueness. -/

/-- save_result preserves the uniqueness of the content_hash column: a
record is only appended after the duplicate check ruled its hash out. -/
lemma save_result_hashes (env : Env) (db : DBState) (url : String)
    (title : Option String) (content : String) (ip : Option String)
    (h : (hashes db).Nodup) :
    (hashes (save_result env db url title content ip)).Nodup := by
  by_cases hdup : is_duplicate_content db (get_content_hash env content) = true
  · simpa [save_result, hdup] using h
  · by_cases hurl : url_already_saved db url = true
    · simpa [save_result, hdup, hurl] using h
    · have hnew : get_content_hash env content ∉ hashes db := by
        intro hcon
        exact hdup ((is_duplicate_content_iff db _).2 hcon)
      have heq : hashes (save_result env db url title content ip)
          = hashes db ++ [get_content_hash env content] := by
        simp [save_result, hdup, hurl, hashes]
      rw [heq, List.nodup_append]
      refine ⟨h, List.nodup_singleton _, ?_⟩
      intro x hx hx'
      rw [List.mem_singleton.1 hx'] at hx
      exact hnew hx

/-- crawl_page preserves the uniqueness of the content_hash column. -/
lemma crawl_page_hashes (c : WebCrawler) (env : Env) (db : DBState)
    (url : String) (h : (hashes db).Nodup) :
    (hashes (crawl_page c env db url).2).Nodup := by
  rcases hf : env.fetch url with e | page
  · simpa [crawl_page, hf, hashes, log_crawl] using h
  · have : (crawl_page c env db url).2.crawl_results
        = (save_result env db url
            (match page.title_tag with
             | some t => t
             | none => some "No title") page.text (some (env.netloc url))).crawl_results := by
      simp [crawl_page, hf, log_crawl]
    have h2 := save_result_hashes env db url
      (match page.title_tag with
       | some t => t
       | none => some "No title") page.text (some (env.netloc url)) h
    simpa [hashes, this] using h2

/-- Dispatching a batch preserves the uniqueness of the content_hash
column. -/
lemma run_batch_hashes (c : WebCrawler) (env : Env) :
    ∀ (batch : List String) (st : CrawlState),
      (hashes st.db).Nodup →
      (hashes (run_batch c env st batch).db).Nodup := by
  intro batch
  induction batch with
  | nil => intro st h; exact h
  | cons url rest ih =>
    intro st h
    exact ih _ (crawl_page_hashes c env st.db url h)

/-! The crawl loop. -/

/-- Unfolding of the loop when its condition fails: no batch starts. -/
lemma crawl_loop_exit (c : WebCrawler) (env : Env) (mp f : Nat)
    (st : CrawlState) (hcond : ¬(st.queue ≠ [] ∧ st.visited.length < mp)) :
    crawl_loop c env mp (f + 1) st = some st := by
  simp only [crawl_loop]
  rw [if_neg hcond]

/-- Unfolding of the loop when the batch comes back empty: break. -/
lemma crawl_loop_break (c : WebCrawler) (env : Env) (mp f : Nat)
    (st : CrawlState) (hcond : st.queue ≠ [] ∧ st.visited.length < mp)
    (hb : (take_batch c.max_workers st.queue st.visited []).1 = []) :
    crawl_loop c env mp (f + 1) st = some (break_state c st) := by
  simp only [crawl_loop]
  rw [if_pos hcond, if_pos hb]
  rfl

/-- Unfolding of the loop when a non-empty batch is dispatched. -/
lemma crawl_loop_step (c : WebCrawler) (env : Env) (mp f : Nat)
    (st : CrawlState) (hcond : st.queue ≠ [] ∧ st.visited.length < mp)
    (hb : ¬(take_batch c.max_workers st.queue st.visited []).1 = []) :
    crawl_loop c env mp (f + 1) st = crawl_loop c env mp f (step_state c env st) := by
  simp only [crawl_loop]
  rw [if_pos hcond, if_neg hb]
  rfl

/-- What one iteration does to the crawl state: the same duplicate-free
block t of fresh urls extends visited, and the dispatch trace extends by
exactly that block. -/
lemma step_state_spec (c : WebCrawler) (env : Env) (st : CrawlState) :
    ∃ t : List String,
      (take_batch c.max_workers st.queue st.visited []).1 = t ∧
      (step_state c env st).visited = st.visited ++ t ∧
      (step_state c env st).dispatched = st.dispatched ++ t ∧
      (∀ u ∈ t, u ∉ st.visited) ∧ t.Nodup := by
  obtain ⟨t, h1, h2, h3, h4, _⟩ :=
    take_batch_spec c.max_workers st.queue st.visited []
  rw [List.nil_append] at h1
  refine ⟨t, h1, ?_, ?_, h3, h4⟩
  · rw [step_state, (run_batch_visited_dispatched c env _ _).1]
    exact h2
  · rw [step_state, (run_batch_visited_dispatched c env _ _).2]
    rw [mid_state]
    rw [h1]

/-- On the break branch the batch was empty, so nothing new was visited,
dispatched or persisted, and the queue only lost urls. -/
lemma break_state_spec (c : WebCrawler) (st : CrawlState)
    (hb : (take_batch c.max_workers st.queue st.visited []).1 = []) :
    (break_state c st).visited = st.visited ∧
    (break_state c st).dispatched = st.dispatched ∧
    (break_state c st).db = st.db ∧
    (∀ l ∈ (break_state c st).queue, l ∈ st.queue) := by
  obtain ⟨t, h1, h2, h3, h4, h5⟩ :=
    take_batch_spec c.max_workers st.queue st.visited []
  rw [List.nil_append] at h1
  have ht : t = [] := by rw [← h1, hb]
  refine ⟨?_, rfl, rfl, h5⟩
  show (take_batch c.max_workers st.queue st.visited []).2.1 = st.visited
  rw [h2, ht, List.append_nil]

/-- The fuel never runs out when it exceeds the remaining page budget: every
dispatched batch visits at least one new url, so the loop terminates. -/
lemma crawl_loop_isSome (c : WebCrawler) (env : Env) (mp : Nat) :
    ∀ (fuel : Nat) (st : CrawlState),
      1 ≤ fuel → mp < st.visited.length + fuel →
      (crawl_loop c env mp fuel st).isSome := by
  intro fuel
  induction fuel with
  | zero => intro st h1 _; exact absurd h1 (by omega)
  | succ f ihf =>
    intro st _ hmp
    by_cases hcond : st.queue ≠ [] ∧ st.visited.length < mp
    · by_cases hb : (take_batch c.max_workers st.queue st.visited []).1 = []
      · rw [crawl_loop_break c env mp f st hcond hb]; rfl
      · rw [crawl_loop_step c env mp f st hcond hb]
        obtain ⟨t, h1, h2, h3, h4, h5⟩ := step_state_spec c env st
        have ht : t ≠ [] := by intro hc; exact hb (by rw [h1, hc])
        have htl : 1 ≤ t.length := List.length_pos.2 ht
        have hlt := hcond.2
        apply ihf
        · omega
        · rw [h2, List.length_append]; omega
    · rw [crawl_loop_exit c env mp f st hcond]; rfl

/-- The loop never grows the visited set beyond max_pages + max_workers - 1
urls (starting below that bound). -/
lemma crawl_loop_visited_le (c : WebCrawler) (env : Env) (mp : Nat) :
    ∀ (fuel : Nat) (st st' : CrawlState),
      crawl_loop c env mp fuel st = some st' →
      st'.visited.length ≤ max st.visited.length (mp + c.max_workers - 1) := by
  intro fuel
  induction fuel with
  | zero => intro st st' h; simp [crawl_loop] at h
  | succ f ihf =>
    intro st st' h
    by_cases hcond : st.queue ≠ [] ∧ st.visited.length < mp
    · by_cases hb : (take_batch c.max_workers st.queue st.visited []).1 = []
      · rw [crawl_loop_break c env mp f st hcond hb] at h
        obtain rfl := Option.some.inj h
        obtain ⟨hbv, _, _, _⟩ := break_state_spec c st hb
        rw [hbv]
        exact Nat.le_max_left _ _
      · rw [crawl_loop_step c env mp f st hcond hb] at h
        have hrec := ihf _ st' h
        obtain ⟨t, h1, h2, h3, h4, h5⟩ := step_state_spec c env st
        have htlen : t.length ≤ c.max_workers := by
          have hl := take_batch_length c.max_workers st.queue st.visited []
            (by simp)
          rw [h1] at hl
          exact hl
        have hv : (step_state c env st).visited.length
            = st.visited.length + t.length := by
          rw [h2, List.length_append]
        have hlt := hcond.2
        rw [hv, Nat.max_eq_right (by omega)] at hrec
        exact le_trans hrec (Nat.le_max_right _ _)
    · rw [crawl_loop_exit c env mp f st hcond] at h
      obtain rfl := Option.some.inj h
      exact Nat.le_max_left _ _

/-- Once the budget is reached, the loop immediately returns without
starting another batch, leaving the state untouched. -/
lemma crawl_loop_stops (c : WebCrawler) (env : Env) (mp f : Nat)
    (st : CrawlState) (h : mp ≤ st.visited.length) :
    crawl_loop c env mp (f + 1) st = some st :=
  crawl_loop_exit c env mp f st (by rintro ⟨_, hlt⟩; omega)

/-- The dispatch trace stays duplicate-free and inside the visited set. -/
lemma crawl_loop_dispatched (c : WebCrawler) (env : Env) (mp : Nat) :
    ∀ (fuel : Nat) (st st' : CrawlState),
      crawl_loop c env mp fuel st = some st' →
      st.dispatched.Nodup → (∀ u ∈ st.dispatched, u ∈ st.visited) →
      st'.dispatched.Nodup ∧ ∀ u ∈ st'.dispatched, u ∈ st'.visited := by
  intro fuel
  induction fuel with
  | zero => intro st st' h; simp [crawl_loop] at h
  | succ f ihf =>
    intro st st' h hnd hsub
    by_cases hcond : st.queue ≠ [] ∧ st.visited.length < mp
    · by_cases hb : (take_batch c.max_workers st.queue st.visited []).1 = []
      · rw [crawl_loop_break c env mp f st hcond hb] at h
        obtain rfl := Option.some.inj h
        obtain ⟨hbv, hbd, _, _⟩ := break_state_spec c st hb
        rw [hbv, hbd]
        exact ⟨hnd, hsub⟩
      · rw [crawl_loop_step c env mp f st hcond hb] at h
        obtain ⟨t, h1, h2, h3, h4, h5⟩ := step_state_spec c env st
        apply ihf _ st' h
        · rw [h3, List.nodup_append]
          exact ⟨hnd, h5, fun u hu hut => h4 u hut (hsub u hu)⟩
        · intro u hu
          rw [h2]
          rcases List.mem_append.1 (h3 ▸ hu) with hl | hr
          · exact List.mem_append_left _ (hsub u hl)
          · exact List.mem_append_right _ hr
    · rw [crawl_loop_exit c env mp f st hcond] at h
      obtain rfl := Option.some.inj h
      exact ⟨hnd, hsub⟩

/-- A property of all links crawl_page can ever return, true of all pending
urls, stays true of all pending urls for the whole run. -/
lemma crawl_loop_queue_pred (c : WebCrawler) (env : Env) (mp : Nat)
    (p : String → Prop)
    (hcp : ∀ (db : DBState) (url l : String),
      l ∈ (crawl_page c env db url).1 → p l) :
    ∀ (fuel : Nat) (st st' : CrawlState),
      crawl_loop c env mp fuel st = some st' →
      (∀ l ∈ st.queue, p l) → ∀ l ∈ st'.queue, p l := by
  intro fuel
  induction fuel with
  | zero => intro st st' h; simp [crawl_loop] at h
  | succ f ihf =>
    intro st st' h hq
    by_cases hcond : st.queue ≠ [] ∧ st.visited.length < mp
    · by_cases hb : (take_batch c.max_workers st.queue st.visited []).1 = []
      · rw [crawl_loop_break c env mp f st hcond hb] at h
        obtain rfl := Option.some.inj h
        obtain ⟨_, _, _, hbq⟩ := break_state_spec c st hb
        exact fun l hl => hq l (hbq l hl)
      · rw [crawl_loop_step c env mp f st hcond hb] at h
        obtain ⟨t, h1, h2, h3, h4, h5⟩ :=
          take_batch_spec c.max_workers st.queue st.visited []
        have hmid : ∀ l ∈ (mid_state c st).queue, p l :=
          fun l hl => hq l (h5 l hl)
        exact ihf _ st' h
          (run_batch_queue_pred c env p hcp _ (mid_state c st) hmid)
    · rw [crawl_loop_exit c env mp f st hcond] at h
      obtain rfl := Option.some.inj h
      exact hq

/-- Content-hash uniqueness in the result store is preserved by the whole
loop. -/
lemma crawl_loop_hashes (c : WebCrawler) (env : Env) (mp : Nat) :
    ∀ (fuel : Nat) (st st' : CrawlState),
      crawl_loop c env mp fuel st = some st' →
      (hashes st.db).Nodup → (hashes st'.db).Nodup := by
  intro fuel
  induction fuel with
  | zero => intro st st' h; simp [crawl_loop] at h
  | succ f ihf =>
    intro st st' h hnd
    by_cases hcond : st.queue ≠ [] ∧ st.visited.length < mp
    · by_cases hb : (take_batch c.max_workers st.queue st.visited []).1 = []
      · rw [crawl_loop_break c env mp f st hcond hb] at h
        obtain rfl := Option.some.inj h
        obtain ⟨_, _, hdb, _⟩ := break_state_spec c st hb
        rw [hdb]
        exact hnd
      · rw [crawl_loop_step c env mp f st hcond hb] at h
        exact ihf _ st' h (run_batch_hashes c env _ (mid_state c st) hnd)
    · rw [crawl_loop_exit c env mp f st hcond] at h
      obtain rfl := Option.some.inj h
      exact hnd

/-! crawl_page as a whole. -/

/-- Every link a worker returns has passed the exact-host domain filter. -/
lemma crawl_page_links_valid (c : WebCrawler) (env : Env) (db : DBState)
    (url l : String) (h : l ∈ (crawl_page c env db url).1) :
    env.netloc l = c.domain := by
  rcases hf : env.fetch url with e | page
  · simp [crawl_page, hf] at h
  · have h' : l ∈ add_links c env url page.anchors [] := by
      simpa [crawl_page, hf] using h
    rcases mem_add_links c env url page.anchors [] l h' with h0 | hv
    · exact absurd h0 (List.not_mem_nil l)
    · exact (is_valid_url_iff c env l).1 hv

/-- Every crawl_page call appends exactly one log entry, for its own url,
with status success or error. -/
lemma crawl_page_logs_append (c : WebCrawler) (env : Env) (db : DBState)
    (url : String) :
    ∃ e : LogEntry,
      (crawl_page c env db url).2.crawl_logs = db.crawl_logs ++ [e] ∧
      e.url = url ∧ (e.status = "success" ∨ e.status = "error") := by
  rcases hf : env.fetch url with e | page
  · exact ⟨⟨url, "error", some e⟩, by simp [crawl_page, hf, log_crawl], rfl, Or.inr rfl⟩
  · refine ⟨⟨url, "success", none⟩, ?_, rfl, Or.inl rfl⟩
    simp [crawl_page, hf, log_crawl, save_result_logs]

/-! Independence from the DatabaseConfig: no definition reads it, so all
observable behavior is a congruence in the remaining fields. -/

/-- is_valid_url only reads the target domain. -/
lemma is_valid_url_congr (c1 c2 : WebCrawler) (hdom : c1.domain = c2.domain)
    (env : Env) (u : String) :
    is_valid_url c1 env u = is_valid_url c2 env u := by
  simp [is_valid_url, hdom]

/-- Link extraction only reads the target domain. -/
lemma add_links_congr (c1 c2 : WebCrawler) (hdom : c1.domain = c2.domain)
    (env : Env) (url : String) :
    ∀ (anchors : List (Option String)) (acc : List String),
      add_links c1 env url anchors acc = add_links c2 env url anchors acc := by
  intro anchors
  induction anchors with
  | nil => intro acc; rfl
  | cons href? rest ih =>
    intro acc
    cases href? with
    | none => exact ih acc
    | some href =>
      by_cases he : href = ""
      · simp only [add_links, if_pos he]
        exact ih acc
      · simp only [add_links, if_neg he]
        rw [is_valid_url_congr c1 c2 hdom env (env.urljoin url href)]
        by_cases hv : is_valid_url c2 env (env.urljoin url href) = true
        · rw [if_pos hv, if_pos hv]
          by_cases hm : env.urljoin url href ∈ acc
          · rw [if_pos hm, if_pos hm]
            exact ih acc
          · rw [if_neg hm, if_neg hm]
            exact ih _
        · rw [if_neg hv, if_neg hv]
          exact ih acc

/-- The worker only reads the target domain of the crawler object. -/
lemma crawl_page_congr (c1 c2 : WebCrawler) (hdom : c1.domain = c2.domain)
    (env : Env) (db : DBState) (url : String) :
    crawl_page c1 env db url = crawl_page c2 env db url := by
  rcases hf : env.fetch url with e | page
  · simp [crawl_page, hf]
  · simp [crawl_page, hf, add_links_congr c1 c2 hdom env url]

/-- Batch dispatch only reads the target domain of the crawler object. -/
lemma run_batch_congr (c1 c2 : WebCrawler) (hdom : c1.domain = c2.domain)
    (env : Env) :
    ∀ (batch : List String) (st : CrawlState),
      run_batch c1 env st batch = run_batch c2 env st batch := by
  intro batch
  induction batch with
  | nil => intro st; rfl
  | cons url rest ih =>
    intro st
    simp only [run_batch, crawl_page_congr c1 c2 hdom env st.db url]
    exact ih _

/-- The whole loop only reads the target domain and the worker bound. -/
lemma crawl_loop_congr (c1 c2 : WebCrawler) (hdom : c1.domain = c2.domain)
    (hmw : c1.max_workers = c2.max_workers) (env : Env) (mp : Nat) :
    ∀ (fuel : Nat) (st : CrawlState),
      crawl_loop c1 env mp fuel st = crawl_loop c2 env mp fuel st := by
  intro fuel
  induction fuel with
  | zero => intro st; rfl
  | succ f ih =>
    intro st
    by_cases hcond : st.queue ≠ [] ∧ st.visited.length < mp
    · by_cases hb : (take_batch c1.max_workers st.queue st.visited []).1 = []
      · rw [crawl_loop_break c1 env mp f st hcond hb,
          crawl_loop_break c2 env mp f st hcond (by rw [← hmw]; exact hb)]
        rw [break_state, break_state, hmw]
      · rw [crawl_loop_step c1 env mp f st hcond hb,
          crawl_loop_step c2 env mp f st hcond (by rw [← hmw]; exact hb)]
        have hmid : mid_state c1 st = mid_state c2 st := by
          rw [mid_state, mid_state, hmw]
        have hstep : step_state c1 env st = step_state c2 env st := by
          rw [step_state, step_state, hmid, hmw, run_batch_congr c1 c2 hdom env]
        rw [hstep]
        exact ih _
    · rw [crawl_loop_exit c1 env mp f st hcond,
        crawl_loop_exit c2 env mp f st hcond]

/-! The claims. -/

/-- C1: the worker's link extraction keeps only links whose host matches the
crawl's target domain exactly, so links outside the seed's domain are never
enqueued into the frontier: every link crawl_page returns has the target
host, and on any completed run every url ever pending in the queue has the
target host. -/
theorem c1_domain_filter_exact_host (c : WebCrawler) (env : Env) (db : DBState)
    (url l : String) (mp : Nat) (db0 : DBState) (st : CrawlState) (l' : String) :
    (l ∈ (crawl_page c env db url).1 → env.netloc l = c.domain) ∧
    (env.netloc c.start_url = c.domain → crawl c env mp db0 = some st →
      l' ∈ st.queue → env.netloc l' = c.domain) := by
  refine ⟨fun h => crawl_page_links_valid c env db url l h, ?_⟩
  intro hstart h hl'
  rw [crawl] at h
  refine crawl_loop_queue_pred c env mp (fun x => env.netloc x = c.domain)
    (fun db' u x hx => crawl_page_links_valid c env db' u x hx)
    (mp + 1) (init_state c db0) st h ?_ l' hl'
  intro x hx
  have hx' : x = c.start_url := List.mem_singleton.1 hx
  rw [hx']
  exact hstart

/-- Witness for C1 at the concrete four-page world. -/
theorem c1_witness :
    testEnv.netloc "b" = testCrawler.domain ∧
    testEnv.netloc "s" = testCrawler.domain :=
  ⟨(c1_domain_filter_exact_host testCrawler testEnv emptyDB "s" "b" 0 emptyDB
      testInit "s").1 (by decide),
   (c1_domain_filter_exact_host testCrawler testEnv emptyDB "s" "b" 0 emptyDB
      testInit "s").2 (by decide) (by decide) (by decide)⟩

/-- C2: every crawl_page call produces exactly one crawl-log entry for its
url, with status success or error — never zero entries, never more than
one. -/
theorem c2_exactly_one_log_entry (c : WebCrawler) (env : Env) (db : DBState)
    (url : String) :
    ∃ e : LogEntry,
      (crawl_page c env db url).2.crawl_logs = db.crawl_logs ++ [e] ∧
      e.url = url ∧ (e.status = "success" ∨ e.status = "error") :=
  crawl_page_logs_append c env db url

/-- C3: a successfully fetched page whose content fingerprint is already in
the result store leaves the store unchanged while still being logged as a
success; and over any completed run, content_hash stays unique across all
stored records. -/
theorem c3_content_hash_unique (c : WebCrawler) (env : Env) (db : DBState)
    (url : String) (page : Page) (mp : Nat) (db0 : DBState) (st : CrawlState) :
    (env.fetch url = Except.ok page →
      is_duplicate_content db (get_content_hash env page.text) = true →
      (crawl_page c env db url).2.crawl_results = db.crawl_results ∧
      ∃ e : LogEntry,
        (crawl_page c env db url).2.crawl_logs = db.crawl_logs ++ [e] ∧
        e.status = "success") ∧
    ((hashes db0).Nodup → crawl c env mp db0 = some st →
      (hashes st.db).Nodup) := by
  constructor
  · intro hf hdup
    constructor
    · simp [crawl_page, hf, log_crawl, save_result, hdup]
    · exact ⟨⟨url, "success", none⟩,
        by simp [crawl_page, hf, log_crawl, save_result_logs], rfl⟩
  · intro hnd h
    rw [crawl] at h
    exact crawl_loop_hashes c env mp (mp + 1) (init_state c db0) st h hnd

/-- Witness for C3: page "b" against a store already holding hash "B". -/
theorem c3_witness :
    ((crawl_page testCrawler testEnv dbDup "b").2.crawl_results
        = dbDup.crawl_results ∧
      ∃ e : LogEntry,
        (crawl_page testCrawler testEnv dbDup "b").2.crawl_logs
          = dbDup.crawl_logs ++ [e] ∧ e.status = "success") ∧
    (hashes testInit.db).Nodup :=
  ⟨(c3_content_hash_unique testCrawler testEnv dbDup "b" pageB 0 emptyDB
      testInit).1 (by rfl) (by decide),
   (c3_content_hash_unique testCrawler testEnv dbDup "b" pageB 0 emptyDB
      testInit).2 (by decide) (by decide)⟩

/-- C4: within one run no url is dispatched to a worker more than once: the
dispatch trace of any completed run is duplicate-free, and every dispatched
url was marked visited. -/
theorem c4_dispatch_once (c : WebCrawler) (env : Env) (mp : Nat)
    (db0 : DBState) (st : CrawlState) (h : crawl c env mp db0 = some st) :
    st.dispatched.Nodup ∧ ∀ u ∈ st.dispatched, u ∈ st.visited := by
  rw [crawl] at h
  exact crawl_loop_dispatched c env mp (mp + 1) (init_state c db0) st h
    List.nodup_nil (fun u hu => absurd hu (List.not_mem_nil u))

/-- Witness for C4 on a full three-batch run. -/
theorem c4_witness :
    finalSt3.dispatched.Nodup ∧
    ∀ u ∈ finalSt3.dispatched, u ∈ finalSt3.visited :=
  c4_dispatch_once testCrawler testEnv 3 emptyDB finalSt3 (by decide)

/-- C5 counterexample: the claim that the worker has no side effects beyond
its returned data is false — crawl_page on the seed page itself changes the
database, both tables included. -/
theorem c5_counterexample :
    (crawl_page testCrawler testEnv emptyDB "s").2 ≠ emptyDB ∧
    (crawl_page testCrawler testEnv emptyDB "s").2.crawl_logs
      ≠ emptyDB.crawl_logs ∧
    (crawl_page testCrawler testEnv emptyDB "s").2.crawl_results
      ≠ emptyDB.crawl_results := by
  refine ⟨?_, ?_, ?_⟩ <;> decide

/-- C5 amended: the worker itself performs the persistence — every
crawl_page call appends exactly one entry to the crawl log during the call,
so the database it returns always differs from the one it was given. -/
theorem c5_worker_persists (c : WebCrawler) (env : Env) (db : DBState)
    (url : String) :
    (crawl_page c env db url).2.crawl_logs.length = db.crawl_logs.length + 1 := by
  obtain ⟨e, he, -, -⟩ := crawl_page_logs_append c env db url
  rw [he, List.length_append]
  rfl

/-- C6: on a transport or parse failure the worker returns the empty
discovered-link set, appends exactly one log entry with status error and
the non-null failure detail, and leaves the result store unchanged; being a
total function, it propagates no exception and the crawl continues. -/
theorem c6_error_outcome (c : WebCrawler) (env : Env) (db : DBState)
    (url e : String) (h : env.fetch url = Except.error e) :
    (crawl_page c env db url).1 = [] ∧
    (crawl_page c env db url).2.crawl_logs
      = db.crawl_logs ++ [⟨url, "error", some e⟩] ∧
    (crawl_page c env db url).2.crawl_results = db.crawl_results := by
  refine ⟨?_, ?_, ?_⟩ <;> simp [crawl_page, h, log_crawl]

/-- Witness for C6 at a url whose fetch raises. -/
theorem c6_witness :
    (crawl_page testCrawler testEnv emptyDB "q").1 = [] ∧
    (crawl_page testCrawler testEnv emptyDB "q").2.crawl_logs
      = emptyDB.crawl_logs ++ [⟨"q", "error", some "404"⟩] ∧
    (crawl_page testCrawler testEnv emptyDB "q").2.crawl_results
      = emptyDB.crawl_results :=
  c6_error_outcome testCrawler testEnv emptyDB "q" "404" (by rfl)

/-- C7 counterexample: the frontier queue CAN contain duplicate occurrences
of the same url — links are only checked against the visited set, not
against pending queue entries.  In the four-page world, "b" and "c" both
link to "z", and the run with budget 3 ends with queue ["z", "z"]. -/
theorem c7_counterexample :
    crawl testCrawler testEnv 3 emptyDB = some finalSt3 ∧
    finalSt3.queue = ["z", "z"] ∧ ¬ finalSt3.queue.Nodup := by
  refine ⟨?_, ?_, ?_⟩ <;> decide

/-- C7 amended: offering a discovered link appends it only if it is not in
the visited set; there is no pending-queue check, so every url pending
after a batch was either already pending or unvisited when offered. -/
theorem c7_offer_unvisited_only (c : WebCrawler) (env : Env)
    (batch : List String) (st : CrawlState) (l : String)
    (h : l ∈ (run_batch c env st batch).queue) :
    l ∈ st.queue ∨ l ∉ st.visited :=
  run_batch_queue_cases c env batch st l h

/-- Witness for the amended C7. -/
theorem c7_witness :
    "z" ∈ pendingTest.queue ∨ "z" ∉ pendingTest.visited :=
  c7_offer_unvisited_only testCrawler testEnv ["b"] pendingTest "z" (by decide)

/-- C8: the budget is checked before each batch, not per page: a completed
run visits at most max_pages + max_workers - 1 distinct urls, and a loop
entered with the budget already reached starts no batch and returns the
state unchanged. -/
theorem c8_budget_check_per_batch (c : WebCrawler) (env : Env) (mp f : Nat)
    (db0 : DBState) (st stb : CrawlState) :
    (crawl c env mp db0 = some st →
      st.visited.length ≤ mp + c.max_workers - 1) ∧
    (mp ≤ stb.visited.length → crawl_loop c env mp (f + 1) stb = some stb) := by
  constructor
  · intro h
    rw [crawl] at h
    have hle := crawl_loop_visited_le c env mp (mp + 1) (init_state c db0) st h
    have h0 : (init_state c db0).visited.length = 0 := rfl
    have hmax : max 0 (mp + c.max_workers - 1) = mp + c.max_workers - 1 :=
      Nat.max_eq_right (Nat.zero_le _)
    rw [h0, hmax] at hle
    exact hle
  · exact fun hb => crawl_loop_stops c env mp f stb hb

/-- Witness for C8 on the full run with budget 3 and five workers. -/
theorem c8_witness :
    finalSt3.visited.length ≤ 3 + testCrawler.max_workers - 1 ∧
    crawl_loop testCrawler testEnv 3 1 finalSt3 = some finalSt3 :=
  ⟨(c8_budget_check_per_batch testCrawler testEnv 3 0 emptyDB finalSt3
      finalSt3).1 (by decide),
   (c8_budget_check_per_batch testCrawler testEnv 3 0 emptyDB finalSt3
      finalSt3).2 (by decide)⟩

/-- C9: for every finite page budget the crawl loop terminates — the fuel
max_pages + 1 can never run out, because every executed batch grows the
visited set by at least one url. -/
theorem c9_loop_terminates (c : WebCrawler) (env : Env) (mp : Nat)
    (db0 : DBState) :
    (crawl c env mp db0).isSome := by
  rw [crawl]
  apply crawl_loop_isSome
  · omega
  · have h0 : (init_state c db0).visited.length = 0 := rfl
    omega

/-- C10: the crawler's behavior is completely independent of the
DatabaseConfig value passed to its constructor: two runs differing only in
db_config produce identical results. -/
theorem c10_db_config_irrelevant (c : WebCrawler) (d1 d2 : DatabaseConfig)
    (env : Env) (mp : Nat) (db0 : DBState) :
    crawl { c with db_config := d1 } env mp db0
      = crawl { c with db_config := d2 } env mp db0 := by
  rw [crawl, crawl]
  have hinit : init_state { c with db_config := d1 } db0
      = init_state { c with db_config := d2 } db0 := rfl
  rw [hinit]
  exact crawl_loop_congr { c with db_config := d1 } { c with db_config := d2 }
    rfl rfl env mp (mp + 1) _

end CrawlerPy
